import Mathlib

/-!
Verification development for the virsnap VM snapshot tool.

The embedding models the two cores of the program:

* the VM power-state transition engine (`VM.Transition` in `pkg/virt`,
  full version with the per-state dispatch),
* the snapshot selection / retention engine (`ListMatchingVMs`,
  `ListMatchingSnapshots`, `CreateSnapshot`, the `clean` command's
  pruning loop) and the per-VM orchestration of `create` and `export`.

Hypervisor (libvirt) interactions are modelled by an oracle environment
`Env` giving the result of the n-th call of each kind; the transition
engine threads an instrumented state `TSt` counting the calls it makes
and recording each call together with its response in a trace.  Wall
clock time and sleeps are abstracted: every polling loop of the source
polls the state once per fixed sleep interval until a deadline derived
from the timeout; the model replaces the deadline by the number `polls`
of poll iterations the loop performs (the source always performs at
least one).  The recursion of `Transition` into itself (composed
transitions) is bounded by explicit fuel; running out of fuel is an
error result, never a success, so nothing is proved about executions
the source would not perform.
-/

namespace Virsnap

/-- Libvirt domain power states, in the order of the libvirt constants
(`DOMAIN_NOSTATE`, `DOMAIN_RUNNING`, `DOMAIN_BLOCKED`, `DOMAIN_PAUSED`,
`DOMAIN_SHUTDOWN`, `DOMAIN_SHUTOFF`, `DOMAIN_CRASHED`,
`DOMAIN_PMSUSPENDED`). -/
inductive DomState
  | nostate
  | running
  | blocked
  | paused
  | shutdown
  | shutoff
  | crashed
  | pmsuspended
  deriving DecidableEq, Repr

/-- Result of a `vm.Instance.Shutdown()` request.  The source inspects a
failed request's libvirt error: code `ERR_OPERATION_INVALID`, or a
message containing "domain is not running", are distinguished from any
other error. -/
inductive ShutdownRes
  | ok
  | errOpInvalid
  | errNotRunning
  | errOther
  deriving DecidableEq, Repr

/-- One hypervisor call together with its response, as recorded in the
call trace.  `getState` is the only call that does not change the VM's
state; all other constructors are state-changing requests. -/
inductive HCIEv
  | getState (r : Option DomState)
  | shutdownReq (r : ShutdownRes)
  | suspendReq (ok : Bool)
  | pmsuspendReq (ok : Bool)
  | destroyReq (ok : Bool)
  | createReq (ok : Bool)
  | resumeReq (ok : Bool)
  | pmwakeupReq (ok : Bool)
  deriving DecidableEq, Repr

/-- Oracle environment: the response of the hypervisor to the n-th call
of each kind.  `getState n = none` models a failed
`vm.Instance.GetState()` (which in the source yields the zero value
`DOMAIN_NOSTATE` for the state variable together with an error). -/
structure Env where
  getState : Nat → Option DomState
  shutdownReq : Nat → ShutdownRes
  suspendReq : Nat → Bool
  pmsuspendReq : Nat → Bool
  destroyReq : Nat → Bool
  createReq : Nat → Bool
  resumeReq : Nat → Bool
  pmwakeupReq : Nat → Bool

/-- Instrumentation threaded through a `Transition` call: how many calls
of each kind were made so far, and the trace of calls with responses. -/
structure TSt where
  nGet : Nat
  nShut : Nat
  nSusp : Nat
  nPmsusp : Nat
  nDestroy : Nat
  nCreate : Nat
  nResume : Nat
  nPmwake : Nat
  trace : List HCIEv
  deriving DecidableEq, Repr

def TSt.init : TSt := ⟨0, 0, 0, 0, 0, 0, 0, 0, []⟩

def bumpGet (env : Env) (s : TSt) : TSt :=
  { s with nGet := s.nGet + 1, trace := s.trace ++ [.getState (env.getState s.nGet)] }

def bumpShut (env : Env) (s : TSt) : TSt :=
  { s with nShut := s.nShut + 1, trace := s.trace ++ [.shutdownReq (env.shutdownReq s.nShut)] }

def bumpSusp (env : Env) (s : TSt) : TSt :=
  { s with nSusp := s.nSusp + 1, trace := s.trace ++ [.suspendReq (env.suspendReq s.nSusp)] }

def bumpPmsusp (env : Env) (s : TSt) : TSt :=
  { s with nPmsusp := s.nPmsusp + 1, trace := s.trace ++ [.pmsuspendReq (env.pmsuspendReq s.nPmsusp)] }

def bumpDestroy (env : Env) (s : TSt) : TSt :=
  { s with nDestroy := s.nDestroy + 1, trace := s.trace ++ [.destroyReq (env.destroyReq s.nDestroy)] }

def bumpCreate (env : Env) (s : TSt) : TSt :=
  { s with nCreate := s.nCreate + 1, trace := s.trace ++ [.createReq (env.createReq s.nCreate)] }

def bumpResume (env : Env) (s : TSt) : TSt :=
  { s with nResume := s.nResume + 1, trace := s.trace ++ [.resumeReq (env.resumeReq s.nResume)] }

def bumpPmwake (env : Env) (s : TSt) : TSt :=
  { s with nPmwake := s.nPmwake + 1, trace := s.trace ++ [.pmwakeupReq (env.pmwakeupReq s.nPmwake)] }

/-- Error results of `VM.Transition`, one per `return ..., err` site of
the source (the source returns wrapped string errors; only the kind
matters here).  `outOfFuel` is an artifact of bounding the source's
recursion; it is an error result, never a success. -/
inductive TErr
  | invalidTarget
  | stateQueryFailed
  | transitionFailed
  | gracefulTimeout
  | blockedTimeout
  | illegalState
  | outOfFuel
  deriving DecidableEq, Repr

/-- The poll loop of the graceful-shutdown rounds and of the
shutting-down wait: sleep, re-query the state (a query error leaves the
observed state at the zero value `DOMAIN_NOSTATE` and continues), stop
successfully on `DOMAIN_SHUTOFF`, give up when the round's time budget
is exhausted (modelled by the iteration count). -/
def pollUntilShutoff (env : Env) : Nat → TSt → Bool × TSt
  | 0, s => (false, s)
  | n + 1, s =>
    if (env.getState s.nGet).getD .nostate = .shutoff then (true, bumpGet env s)
    else pollUntilShutoff env n (bumpGet env s)

/-- The poll loop of the `DOMAIN_BLOCKED` case: sleep, re-query the
state (a query error leaves the observed state at `DOMAIN_NOSTATE`,
which is not `blocked`, so the loop exits on it like the source does),
return the first observation that is not `blocked`, or `none` when the
timeout budget is exhausted. -/
def pollWhileBlocked (env : Env) : Nat → TSt → Option DomState × TSt
  | 0, s => (none, s)
  | n + 1, s =>
    if (env.getState s.nGet).getD .nostate ≠ .blocked then
      (some ((env.getState s.nGet).getD .nostate), bumpGet env s)
    else pollWhileBlocked env n (bumpGet env s)

/-- Graceful-shutdown rounds of `Transition(Running → Shutoff)`: up to
3 rounds, each issuing a shutdown request and polling.  A request
failing with `ERR_OPERATION_INVALID` or a "domain is not running"
message is success (the VM shut off between polls); any other request
failure is an error.  After the rounds: destroy when `force` is set
(its failure is an error), otherwise a graceful-timeout error.  Every
return site of this sub-protocol in the source returns
`DOMAIN_RUNNING` as the previous state. -/
def gracefulRounds (env : Env) (force : Bool) (polls : Nat) :
    Nat → TSt → (DomState × Option TErr) × TSt
  | 0, s =>
    if force then
      if env.destroyReq s.nDestroy then ((.running, none), bumpDestroy env s)
      else ((.running, some .transitionFailed), bumpDestroy env s)
    else ((.running, some .gracefulTimeout), s)
  | n + 1, s =>
    match env.shutdownReq s.nShut with
    | .errOpInvalid => ((.running, none), bumpShut env s)
    | .errNotRunning => ((.running, none), bumpShut env s)
    | .errOther => ((.running, some .transitionFailed), bumpShut env s)
    | .ok =>
      if (pollUntilShutoff env polls (bumpShut env s)).1 then
        ((.running, none), (pollUntilShutoff env polls (bumpShut env s)).2)
      else gracefulRounds env force polls n (pollUntilShutoff env polls (bumpShut env s)).2

/-- The composed two-hop transition of the source (boot up or wake to
an intermediate state, then transition to the target); it returns
`retSt` as the previous state on success and on failure of either hop
(the source only emits warnings when the intermediate observations
differ from the expected ones). -/
def composedVia (recur : DomState → TSt → (DomState × Option TErr) × TSt)
    (retSt mid tgt : DomState) (s : TSt) : (DomState × Option TErr) × TSt :=
  match (recur mid s).1.2 with
  | some e => ((retSt, some e), (recur mid s).2)
  | none =>
    match (recur tgt (recur mid s).2).1.2 with
    | some e => ((retSt, some e), (recur tgt (recur mid s).2).2)
    | none => ((retSt, none), (recur tgt (recur mid s).2).2)

/-- A single state-changing request with the source's uniform error
handling: on success the previous state `retSt` is returned without
error, on failure with a transition error. -/
def actuate (ok : Bool) (retSt : DomState) (s1 : TSt) : (DomState × Option TErr) × TSt :=
  if ok then ((retSt, none), s1) else ((retSt, some .transitionFailed), s1)

/-- Embedding of `VM.Transition(to, forceShutdown, timeout)` (the full
finite-state-machine version of `pkg/virt`).  `polls` abstracts the
number of poll iterations each waiting loop performs within its time
budget; `fuel` bounds the recursion of composed transitions. -/
def transition (env : Env) (fuel : Nat) (tgt : DomState) (force : Bool)
    (polls : Nat) (s : TSt) : (DomState × Option TErr) × TSt :=
  if tgt ≠ DomState.running ∧ tgt ≠ DomState.shutoff ∧
      tgt ≠ DomState.pmsuspended ∧ tgt ≠ DomState.paused then
    ((.nostate, some .invalidTarget), s)
  else
    match fuel with
    | 0 => ((.nostate, some .outOfFuel), s)
    | Nat.succ fuel' =>
      match env.getState s.nGet with
      | none => ((.nostate, some .stateQueryFailed), bumpGet env s)
      | some st =>
        match st with
        | .running =>
          if tgt = .running then ((st, none), bumpGet env s)
          else if tgt = .paused then
            actuate (env.suspendReq s.nSusp) st (bumpSusp env (bumpGet env s))
          else if tgt = .pmsuspended then
            actuate (env.pmsuspendReq s.nPmsusp) st (bumpPmsusp env (bumpGet env s))
          else
            gracefulRounds env force polls 3 (bumpGet env s)
        | .crashed | .shutoff =>
          if tgt = .shutoff then ((st, none), bumpGet env s)
          else if tgt = .running then
            actuate (env.createReq s.nCreate) st (bumpCreate env (bumpGet env s))
          else
            composedVia (fun t s' => transition env fuel' t force polls s')
              st .running tgt (bumpGet env s)
        | .shutdown =>
          if tgt = .shutoff then
            ((.shutoff, none), (pollUntilShutoff env polls (bumpGet env s)).2)
          else
            composedVia (fun t s' => transition env fuel' t force polls s')
              .shutoff .shutoff tgt (bumpGet env s)
        | .paused =>
          if tgt = .paused then ((st, none), bumpGet env s)
          else if tgt = .running then
            actuate (env.resumeReq s.nResume) st (bumpResume env (bumpGet env s))
          else
            composedVia (fun t s' => transition env fuel' t force polls s')
              st .running tgt (bumpGet env s)
        | .pmsuspended =>
          if tgt = .pmsuspended then ((st, none), bumpGet env s)
          else if tgt = .running then
            actuate (env.pmwakeupReq s.nPmwake) st (bumpPmwake env (bumpGet env s))
          else
            composedVia (fun t s' => transition env fuel' t force polls s')
              st .running tgt (bumpGet env s)
        | .blocked =>
          match (pollWhileBlocked env polls (bumpGet env s)).1 with
          | some _ =>
            match (transition env fuel' tgt force polls
                (pollWhileBlocked env polls (bumpGet env s)).2).1.2 with
            | some e =>
              ((st, some e), (transition env fuel' tgt force polls
                (pollWhileBlocked env polls (bumpGet env s)).2).2)
            | none =>
              ((.running, none), (transition env fuel' tgt force polls
                (pollWhileBlocked env polls (bumpGet env s)).2).2)
          | none => ((.running, some .blockedTimeout), (pollWhileBlocked env polls (bumpGet env s)).2)
        | .nostate => ((st, some .illegalState), bumpGet env s)

/-- The result a caller expects back from an error-free `Transition`
call, as a function of the state the call observed first: the observed
state itself, except that a VM already shutting down reports `shutoff`
(the source returns the state the VM is irreversibly headed to) and a
blocked VM reports `running` (the source returns the state it expects
after the block clears). -/
def expectedPrev : DomState → DomState
  | .shutdown => .shutoff
  | .blocked => .running
  | st => st

/-! ### Matching and sorting (`ListMatchingVMs`, `ListMatchingSnapshots`) -/

/-- The name-carrying part of a VM's XML descriptor
(`libvirtxml.Domain`). -/
structure VMD where
  name : String
  deriving DecidableEq, Repr

/-- The fields of a snapshot's XML descriptor
(`libvirtxml.DomainSnapshot`) the engine reads: the name and the
creation time.  `CreationTime` is a string in the descriptor (the
decimal epoch seconds as reported by the hypervisor); the sorter
compares it with Go string `<`, i.e. lexicographically. -/
structure SnapD where
  name : String
  creationTime : String
  deriving DecidableEq, Repr

/-- The single conditional-swap pass with gap 6 that Go 1.12's
`sort.Sort` (the repository builds with go 1.12 per `go.mod`) runs on a
slice of at most 12 elements before insertion sort: position `i` of the
second half is swapped with position `i` of the first half when the
comparator says so.  For at most 12 elements the swapped pairs are
disjoint, so the sequential loop of the library equals this pointwise
pass. -/
def goCondSwap (less : α → α → Bool) : List α → List α → List α × List α
  | x :: xs, y :: ys =>
    if less y x then
      (y :: (goCondSwap less xs ys).1, x :: (goCondSwap less xs ys).2)
    else
      (x :: (goCondSwap less xs ys).1, y :: (goCondSwap less xs ys).2)
  | xs, ys => (xs, ys)

/-- The gap-6 shell pass of Go 1.12 `sort.Sort` on a short slice. -/
def goShellPass (less : α → α → Bool) (l : List α) : List α :=
  (goCondSwap less (l.take 6) (l.drop 6)).1 ++ (goCondSwap less (l.take 6) (l.drop 6)).2

/-- Insert an element into a sorted prefix after every element that is
not strictly greater, as Go's `insertionSort` inner swap loop does (it
moves the element left while `Less(j, j-1)` holds, so it lands after
the last element less than or equal to it). -/
def goInsert (less : α → α → Bool) (x : α) : List α → List α
  | [] => [x]
  | y :: ys => if less x y then x :: y :: ys else y :: goInsert less x ys

/-- Go's `insertionSort`: process the slice left to right, inserting
each element into the sorted prefix. -/
def goInsertionSort (less : α → α → Bool) (l : List α) : List α :=
  l.foldl (fun acc x => goInsert less x acc) []

/-- `sort.Sort` of the Go 1.12 standard library as the repository's
sorters invoke it, exact for slices of at most 12 elements (for which
the library's `quickSort` runs exactly the gap-6 shell pass followed by
insertion sort; longer slices go through quicksort, which orders by the
same comparator but with a different, also unstable, tie order). -/
def goSortSmall (less : α → α → Bool) (l : List α) : List α :=
  goInsertionSort less (goShellPass less l)

/-- Lexicographic comparison of character sequences by code point,
the embedding of Go's string `<` (Go compares strings byte-wise
lexicographically; UTF-8 byte order agrees with code point order). -/
def charListLt : List Char → List Char → Bool
  | _, [] => false
  | [], _ :: _ => true
  | c :: cs, d :: ds =>
    if c.toNat < d.toNat then true
    else if d.toNat < c.toNat then false
    else charListLt cs ds

/-- Go string `<` on the character-sequence representation. -/
def goStrLt (a b : String) : Bool := charListLt a.data b.data

/-- `VMSorter.Less`: compare VMs by name with Go string `<`. -/
def vmLess (a b : VMD) : Bool := goStrLt a.name b.name

/-- `SnapshotSorter.Less`: compare snapshots by the `CreationTime`
descriptor string with Go string `<`. -/
def snapLess (a b : SnapD) : Bool := goStrLt a.creationTime b.creationTime

/-- Whether a name matches at least one pattern of the set (the
source's inner loop over the compiled expressions with early exit;
patterns are modelled as their compiled Boolean matchers, and a
libvirt-regex `Find` hit means the matcher returns true). -/
def matchesAny (pats : List (String → Bool)) (n : String) : Bool :=
  pats.any (fun p => p n)

/-- The enumeration-and-filter loop shared by `ListMatchingVMs` and
`ListMatchingSnapshots`: each enumerated entity either failed
descriptor retrieval/parsing (`none`: skipped with a warning), or is
kept when its name matches at least one pattern, or is freed
immediately.  Returns the kept entities and the freed entities, both
in enumeration order. -/
def filterMatching (pats : List (String → Bool)) (name : α → String) :
    List (Option α) → List α × List α
  | [] => ([], [])
  | none :: rest => filterMatching pats name rest
  | some x :: rest =>
    if matchesAny pats (name x) then
      (x :: (filterMatching pats name rest).1, (filterMatching pats name rest).2)
    else
      ((filterMatching pats name rest).1, x :: (filterMatching pats name rest).2)

/-- `ListMatchingVMs` (given that connecting and enumerating domains
succeeded, which the claims presuppose): error on an empty pattern set,
otherwise the matching VMs sorted by name together with the trace of
immediately freed non-matching VMs. -/
def listMatchingVMs (pats : List (String → Bool)) (doms : List (Option VMD)) :
    Except Unit (List VMD × List VMD) :=
  if pats.isEmpty then .error ()
  else .ok (goSortSmall vmLess (filterMatching pats VMD.name doms).1,
    (filterMatching pats VMD.name doms).2)

/-- `VM.ListMatchingSnapshots` (given that enumerating the snapshots
succeeded): error on an empty pattern set, otherwise the matching
snapshots sorted by creation time together with the trace of
immediately freed non-matching snapshots. -/
def listMatchingSnapshots (pats : List (String → Bool)) (snaps : List (Option SnapD)) :
    Except Unit (List SnapD × List SnapD) :=
  if pats.isEmpty then .error ()
  else .ok (goSortSmall snapLess (filterMatching pats SnapD.name snaps).1,
    (filterMatching pats SnapD.name snaps).2)

/-! ### Snapshot creation (`VM.CreateSnapshot`) -/

/-- A freshly created snapshot descriptor (name and description), as
`CreateSnapshot` builds it before submitting it to the hypervisor. -/
structure NewSnap where
  name : String
  description : String
  deriving DecidableEq, Repr

inductive CreateErr
  | listFailed
  | marshalFailed
  | createRejected
  | outOfFuel
  deriving DecidableEq, Repr

/-- Oracle inputs of one `CreateSnapshot` call: the VM's existing
snapshots (as enumerated by the uniqueness queries; nothing else
mutates them during the call), the random name generator's i-th output,
whether the i-th snapshot listing succeeds, and whether marshalling and
the hypervisor's creation succeed. -/
structure CreateEnv where
  snaps : List (Option SnapD)
  slug : Nat → String
  listOk : Nat → Bool
  marshalOk : Bool
  createOk : Bool

/-- The anchored pattern `"^" + cand + "$"` built by `CreateSnapshot`:
it matches exactly the candidate string (generated names consist of
letters, digits and underscores, which are regex literals). -/
def exactMatch (cand : String) : String → Bool := fun n => n == cand

/-- The retry loop of `CreateSnapshot`: generate `prefix+slug`, query
the existing snapshots with an exact-match pattern, stop when the query
comes back empty, regenerate on a hit.  The source loop is unbounded;
`fuel` bounds the model, and exhausting it is an error, never a
success. -/
def createSnapshotLoop (env : CreateEnv) (pre : String) :
    Nat → Nat → Except CreateErr String
  | 0, _ => .error .outOfFuel
  | fuel + 1, i =>
    if env.listOk i then
      match listMatchingSnapshots [exactMatch (pre ++ env.slug i)] env.snaps with
      | .error _ => .error .listFailed
      | .ok r =>
        if r.1.isEmpty then .ok (pre ++ env.slug i)
        else createSnapshotLoop env pre fuel (i + 1)
    else .error .listFailed

/-- `VM.CreateSnapshot(prefix, description)`: run the uniqueness retry
loop, then marshal the descriptor and submit it; a rejection by the
hypervisor is an error. -/
def createSnapshot (env : CreateEnv) (pre desc : String) (fuel : Nat) :
    Except CreateErr NewSnap :=
  match createSnapshotLoop env pre fuel 0 with
  | .error e => .error e
  | .ok nm =>
    if env.marshalOk then
      if env.createOk then .ok ⟨nm, desc⟩ else .error .createRejected
    else .error .marshalFailed

/-! ### Retention pruning (the `clean` command) -/

/-- Oracle inputs of the per-VM pruning loop: whether the i-th
scheduled deletion is confirmed (the `--assume-yes` flag or the
interactive prompt) and whether it succeeds on the hypervisor. -/
structure CleanEnv where
  accepts : Nat → Bool
  delOk : Nat → Bool

/-- The deletion loop of `cleanRun` over the snapshots scheduled for
deletion (the list passed here is the oldest `len - keep` prefix):
a declined deletion is skipped and processing continues; a failed
deletion marks the operation failed and returns out of the per-VM
closure, abandoning the remaining scheduled deletions of this VM. -/
def cleanVMGo (env : CleanEnv) : List SnapD → Nat → List SnapD × Bool
  | [], _ => ([], false)
  | sn :: rest, i =>
    if env.accepts i then
      if env.delOk i then
        (sn :: (cleanVMGo env rest (i + 1)).1, (cleanVMGo env rest (i + 1)).2)
      else ([], true)
    else cleanVMGo env rest (i + 1)

/-- The per-VM body of `cleanRun` given the VM's matched snapshots in
oldest-first order: nothing is deleted when at most `keep` snapshots
exist, otherwise the deletion loop runs over the oldest
`len - keep` snapshots.  Returns the deleted snapshots and the failure
flag contribution. -/
def cleanVM (env : CleanEnv) (snaps : List SnapD) (keep : Nat) : List SnapD × Bool :=
  if snaps.length ≤ keep then ([], false)
  else cleanVMGo env (snaps.take (snaps.length - keep)) 0

/-- One matched VM as the `clean` loop sees it: either its snapshot
listing failed (the VM is skipped and the operation marked failed) or
it yields a sorted snapshot list with the per-snapshot oracles. -/
structure VMCleanItem where
  snaps : Option (List SnapD)
  env : CleanEnv

/-- Processing of a single VM inside the `clean` loop. -/
def cleanStep (keep : Nat) (v : VMCleanItem) : List SnapD × Bool :=
  match v.snaps with
  | none => ([], true)
  | some sn => cleanVM v.env sn keep

/-- The `clean` loop over all matched VMs: each VM is processed in
turn, deletions and the aggregated failure flag are accumulated, and a
failure for one VM never stops the loop. -/
def cleanAll (keep : Nat) : List VMCleanItem → List (List SnapD) × Bool
  | [] => ([], false)
  | v :: rest =>
    ((cleanStep keep v).1 :: (cleanAll keep rest).1,
      ((cleanStep keep v).2 || (cleanAll keep rest).2))

/-! ### Per-VM orchestration of `create` and `export` -/

/-- The steps of one per-VM iteration of `createRun` / `exportRun`, in
execution order, each with its outcome. -/
inductive OrchEv
  | captureTried (ok : Bool)
  | snapTried (ok : Bool)
  | exportTried (ok : Bool)
  | restoreTried (target : DomState) (ok : Bool)
  deriving DecidableEq, Repr

/-- Outcomes of the fallible sub-steps of one per-VM orchestration
iteration: the pre-state capture (the initial `Transition` to Shutoff,
returning the VM's former state on success), snapshot creation, the
export copy, and the restoring `Transition` back to the former
state. -/
structure OrchEnv where
  capture : Option DomState
  snapOk : Bool
  exportOk : Bool
  restoreOk : Bool

/-- One iteration of the VM loop of `createRun`: with `--shutdown`,
capture the pre-state by transitioning to Shutoff (on error: mark
failed, continue to the next VM); create the snapshot (a failure marks
the operation failed but deliberately does not skip the rest); then
always attempt the restoring transition back to the captured state.
Returns the failure flag contribution and the trace of attempted
steps. -/
def createStep (env : OrchEnv) (shutdownFlag : Bool) : Bool × List OrchEv :=
  if shutdownFlag then
    match env.capture with
    | none => (true, [.captureTried false])
    | some former =>
      ((!env.snapOk || !env.restoreOk),
        [.captureTried true, .snapTried env.snapOk, .restoreTried former env.restoreOk])
  else
    ((!env.snapOk), [.snapTried env.snapOk])

/-- One iteration of the VM loop of `exportRun`: capture the pre-state
by force-transitioning to Shutoff (on error: mark failed, continue);
then, inside a scope whose deferred handler always attempts the
restoring transition: optionally create a snapshot and run the export
copy, each failure marking the operation failed without skipping the
rest. -/
def exportStep (env : OrchEnv) (snapFlag : Bool) : Bool × List OrchEv :=
  match env.capture with
  | none => (true, [.captureTried false])
  | some former =>
    (((snapFlag && !env.snapOk) || !env.exportOk || !env.restoreOk),
      [.captureTried true] ++ (if snapFlag then [.snapTried env.snapOk] else [])
        ++ [.exportTried env.exportOk] ++ [.restoreTried former env.restoreOk])

/-! ### Concrete inputs used by the witnesses and counterexamples -/

def envAllOk : Env :=
  ⟨fun _ => some .running, fun _ => .ok, fun _ => true, fun _ => true, fun _ => true,
   fun _ => true, fun _ => true, fun _ => true⟩

def envShutdownRace : Env :=
  ⟨fun n => if n = 0 then some .shutdown else some .shutoff, fun _ => .ok, fun _ => true,
   fun _ => true, fun _ => true, fun _ => true, fun _ => true, fun _ => true⟩

def envSuspendOk : Env :=
  ⟨fun _ => some .running, fun _ => .ok, fun _ => true, fun _ => true, fun _ => true,
   fun _ => true, fun _ => true, fun _ => true⟩

def envCrashedVM : Env :=
  ⟨fun _ => some .crashed, fun _ => .ok, fun _ => true, fun _ => true, fun _ => true,
   fun _ => true, fun _ => true, fun _ => true⟩

def envPausedVM : Env :=
  ⟨fun _ => some .paused, fun _ => .ok, fun _ => true, fun _ => true, fun _ => true,
   fun _ => true, fun _ => true, fun _ => true⟩

def envOpInvalidRace : Env :=
  ⟨fun _ => some .running, fun _ => .errOpInvalid, fun _ => true, fun _ => true, fun _ => true,
   fun _ => true, fun _ => true, fun _ => true⟩

def patsW : List (String → Bool) := [fun n => n == "alpha", fun n => n == "gamma"]

def domsW : List (Option VMD) :=
  [some ⟨"alpha"⟩, none, some ⟨"beta"⟩, some ⟨"gamma"⟩]

def vmsW : List (Option VMD) := [some ⟨"cc"⟩, some ⟨"aa"⟩, some ⟨"bb"⟩]

def snapsSortW : List (Option SnapD) := [some ⟨"x", "30"⟩, some ⟨"y", "10"⟩]

def stabilitySnaps : List (Option SnapD) :=
  [some ⟨"a", "5"⟩, some ⟨"b", "1"⟩, some ⟨"c", "1"⟩, some ⟨"d", "5"⟩,
   some ⟨"e", "1"⟩, some ⟨"f", "1"⟩, some ⟨"g", "0"⟩]

def snapsTen : List SnapD := [⟨"w", "10"⟩, ⟨"x", "20"⟩, ⟨"y", "30"⟩, ⟨"z", "40"⟩]

def cleanEnvYes : CleanEnv := ⟨fun _ => true, fun _ => true⟩

def snapsFail : List SnapD := [⟨"s1", "1"⟩, ⟨"s2", "2"⟩, ⟨"s3", "3"⟩]

def cleanEnvFailFirst : CleanEnv := ⟨fun _ => true, fun i => i != 0⟩

def cleanEnvYesB : CleanEnv := ⟨fun _ => true, fun _ => true⟩

def snapsOther : List SnapD := [⟨"t1", "7"⟩]

def snapsScope : List SnapD := [⟨"u1", "1"⟩, ⟨"u2", "2"⟩, ⟨"u3", "3"⟩]

def cleanEnvFailSecond : CleanEnv := ⟨fun _ => true, fun i => i != 1⟩

def vmItemsW : List VMCleanItem :=
  [⟨some snapsScope, cleanEnvFailSecond⟩, ⟨none, cleanEnvFailSecond⟩]

def createEnvW : CreateEnv :=
  ⟨[some ⟨"virsnap_x0", "1"⟩], fun n => if n = 0 then "x0" else "x1",
   fun _ => true, true, true⟩

def orchEnvW : OrchEnv := ⟨some DomState.running, false, false, true⟩

/-! ### Theorems -/

theorem resSplit {a b : DomState} {e e' : Option TErr} {t t' : TSt}
    (h : ((a, e), t) = ((b, e'), t')) : a = b ∧ e = e' ∧ t = t' := by
  rw [Prod.mk.injEq, Prod.mk.injEq] at h
  exact ⟨h.1.1, h.1.2, h.2⟩

theorem actuate_fst (ok : Bool) (retSt : DomState) (s1 : TSt) :
    (actuate ok retSt s1).1.1 = retSt := by
  unfold actuate; split <;> rfl

theorem composedVia_fst (recur : DomState → TSt → (DomState × Option TErr) × TSt)
    (retSt mid tgt : DomState) (s : TSt) :
    (composedVia recur retSt mid tgt s).1.1 = retSt := by
  unfold composedVia
  split
  · rfl
  · split <;> rfl

theorem gracefulRounds_fst (env : Env) (force : Bool) (polls : Nat) :
    ∀ n s, ((gracefulRounds env force polls n s).1.1 = DomState.running)
  | 0, s => by
    unfold gracefulRounds
    split
    · split <;> rfl
    · rfl
  | n + 1, s => by
    unfold gracefulRounds
    split
    · rfl
    · rfl
    · rfl
    · split
      · rfl
      · exact gracefulRounds_fst env force polls n _

theorem helper_result {retSt prev : DomState} {s' : TSt}
    (r : (DomState × Option TErr) × TSt) (hfst : r.1.1 = retSt)
    (h : r = ((prev, none), s')) : prev = retSt := by
  rw [h] at hfst
  simpa using hfst

theorem pollUntilShutoff_trace (env : Env) :
    ∀ (n : Nat) (s : TSt), ∃ d, (pollUntilShutoff env n s).2.trace = s.trace ++ d ∧
      ∀ x ∈ d, ∃ r, x = HCIEv.getState r
  | 0, s => ⟨[], by simp [pollUntilShutoff]⟩
  | n + 1, s => by
    rw [pollUntilShutoff]
    split
    · exact ⟨[HCIEv.getState (env.getState s.nGet)], by simp [bumpGet], by simp⟩
    · obtain ⟨d, hd, hdg⟩ := pollUntilShutoff_trace env n (bumpGet env s)
      refine ⟨HCIEv.getState (env.getState s.nGet) :: d, ?_, ?_⟩
      · simp only [bumpGet] at hd ⊢
        rw [hd]
        simp
      · intro x hx
        rcases List.mem_cons.mp hx with rfl | hx
        · exact ⟨_, rfl⟩
        · exact hdg x hx

theorem gracefulRounds_opInv (env : Env) (force : Bool) (polls : Nat) (ev : HCIEv)
    (hev : ev = HCIEv.shutdownReq ShutdownRes.errOpInvalid ∨
      ev = HCIEv.shutdownReq ShutdownRes.errNotRunning) :
    ∀ (n : Nat) (s : TSt) (prev : DomState) (e : Option TErr) (s' : TSt),
      gracefulRounds env force polls n s = ((prev, e), s') →
      ev ∈ s'.trace → ev ∉ s.trace → prev = DomState.running ∧ e = none
  | 0, s, prev, e, s', h, hin, hnew => by
    rw [gracefulRounds] at h
    split at h
    · split at h
      · exact ⟨(resSplit h).1.symm, (resSplit h).2.1.symm⟩
      · obtain ⟨_, _, rfl⟩ := resSplit h
        simp [bumpDestroy] at hin
        rcases hin with hin | hin
        · exact absurd hin hnew
        · rcases hev with rfl | rfl <;> simp at hin
    · obtain ⟨_, _, rfl⟩ := resSplit h
      exact absurd hin hnew
  | n + 1, s, prev, e, s', h, hin, hnew => by
    rw [gracefulRounds] at h
    split at h
    · exact ⟨(resSplit h).1.symm, (resSplit h).2.1.symm⟩
    · exact ⟨(resSplit h).1.symm, (resSplit h).2.1.symm⟩
    · next heq =>
      obtain ⟨_, _, rfl⟩ := resSplit h
      simp [bumpShut, heq] at hin
      rcases hin with hin | hin
      · exact absurd hin hnew
      · rcases hev with rfl | rfl <;> simp at hin
    · next heq =>
      split at h
      · exact ⟨(resSplit h).1.symm, (resSplit h).2.1.symm⟩
      · refine gracefulRounds_opInv env force polls ev hev n _ prev e s' h hin ?_
        obtain ⟨d, hd, hdg⟩ := pollUntilShutoff_trace env polls (bumpShut env s)
        intro hmem
        rw [hd] at hmem
        simp [bumpShut, heq] at hmem
        rcases hmem with hmem | hmem | hmem
        · exact hnew hmem
        · rcases hev with rfl | rfl <;> simp at hmem
        · obtain ⟨r, hr⟩ := hdg ev hmem
          rcases hev with rfl | rfl <;> simp at hr

/-- Claim C1 (amended): an error-free `Transition` returns the state
the VM was in immediately before the call whenever that state is
Running, Paused, PM-Suspended, Shutoff or Crashed; when the VM is
observed Shutting-Down the call returns Shutoff, and when it is
observed Blocked it returns Running (`expectedPrev`). -/
theorem transition_ok_returns_expectedPrev (env : Env) (fuel : Nat) (tgt : DomState)
    (force : Bool) (polls : Nat) (s : TSt) (st0 prev : DomState) (s' : TSt)
    (hg : env.getState s.nGet = some st0)
    (h : transition env fuel tgt force polls s = ((prev, none), s')) :
    prev = expectedPrev st0 := by
  rw [transition.eq_def] at h
  split at h
  · exact absurd (resSplit h).2.1 (by simp)
  · cases fuel with
    | zero => exact absurd (resSplit h).2.1 (by simp)
    | succ fuel' =>
      rw [hg] at h
      cases st0 with
      | nostate =>
        simp only [] at h
        exact absurd (resSplit h).2.1 (by simp)
      | running =>
        show prev = DomState.running
        simp only [] at h
        split at h
        · exact (resSplit h).1.symm
        · split at h
          · exact helper_result _ (actuate_fst _ _ _) h
          · split at h
            · exact helper_result _ (actuate_fst _ _ _) h
            · exact helper_result _ (gracefulRounds_fst env force polls 3 _) h
      | shutdown =>
        show prev = DomState.shutoff
        simp only [] at h
        split at h
        · exact (resSplit h).1.symm
        · exact helper_result _ (composedVia_fst _ _ _ _ _) h
      | blocked =>
        show prev = DomState.running
        simp only [] at h
        split at h
        · split at h
          · exact absurd (resSplit h).2.1 (by simp)
          · exact (resSplit h).1.symm
        · exact absurd (resSplit h).2.1 (by simp)
      | crashed =>
        show prev = DomState.crashed
        simp only [] at h
        split at h
        · exact (resSplit h).1.symm
        · split at h
          · exact helper_result _ (actuate_fst _ _ _) h
          · exact helper_result _ (composedVia_fst _ _ _ _ _) h
      | shutoff =>
        show prev = DomState.shutoff
        simp only [] at h
        split at h
        · exact (resSplit h).1.symm
        · split at h
          · exact helper_result _ (actuate_fst _ _ _) h
          · exact helper_result _ (composedVia_fst _ _ _ _ _) h
      | paused =>
        show prev = DomState.paused
        simp only [] at h
        split at h
        · exact (resSplit h).1.symm
        · split at h
          · exact helper_result _ (actuate_fst _ _ _) h
          · exact helper_result _ (composedVia_fst _ _ _ _ _) h
      | pmsuspended =>
        show prev = DomState.pmsuspended
        simp only [] at h
        split at h
        · exact (resSplit h).1.symm
        · split at h
          · exact helper_result _ (actuate_fst _ _ _) h
          · exact helper_result _ (composedVia_fst _ _ _ _ _) h

theorem transition_ok_returns_expectedPrev_witness :
    DomState.running = expectedPrev DomState.running :=
  transition_ok_returns_expectedPrev envSuspendOk 1 .paused false 0 TSt.init .running .running
    (transition envSuspendOk 1 .paused false 0 TSt.init).2 rfl rfl

/-- Claim C1, counterexample to the claim as stated: a VM observed in
the Shutting-Down state, driven to Shutoff, yields an error-free call
that returns Shutoff, not the pre-call state Shutting-Down. -/
theorem transition_shutdown_prev_cex :
    envShutdownRace.getState TSt.init.nGet = some DomState.shutdown ∧
    (transition envShutdownRace 1 .shutoff false 1 TSt.init).1 = (DomState.shutoff, none) ∧
    DomState.shutoff ≠ DomState.shutdown :=
  ⟨rfl, rfl, by decide⟩

/-- Claim C2 (amended): for every allowed target state X (Running,
Paused, PM-Suspended, Shutoff), a `Transition` call that observes the
VM already in X is a no-op: it returns X as the previous state without
error, and the only hypervisor call it issues is the initial state
query (no state-changing call). -/
theorem transition_same_state_noop (env : Env) (fuel polls : Nat) (force : Bool) (s : TSt)
    (X : DomState)
    (hX : X = DomState.running ∨ X = DomState.paused ∨ X = DomState.pmsuspended ∨
      X = DomState.shutoff)
    (hg : env.getState s.nGet = some X) :
    transition env (Nat.succ fuel) X force polls s = ((X, none), bumpGet env s) ∧
    (bumpGet env s).trace = s.trace ++ [HCIEv.getState (some X)] := by
  constructor
  · rcases hX with rfl | rfl | rfl | rfl <;> (rw [transition.eq_def]; simp [hg])
  · simp [bumpGet, hg]

theorem transition_same_state_noop_witness :
    transition envPausedVM (Nat.succ 3) .paused false 2 TSt.init =
      ((DomState.paused, none), bumpGet envPausedVM TSt.init) ∧
    (bumpGet envPausedVM TSt.init).trace =
      TSt.init.trace ++ [HCIEv.getState (some DomState.paused)] :=
  transition_same_state_noop envPausedVM 3 2 false TSt.init .paused
    (Or.inr (Or.inl rfl)) rfl

/-- Claim C2, counterexample to the claim as stated: Crashed is a
non-error state (it is not Unknown/NoState), yet a `Transition` call on
a crashed VM with target Crashed is rejected as an invalid target: it
returns the NoState sentinel with an error, not Crashed without
error. -/
theorem transition_crashed_noop_cex :
    envCrashedVM.getState TSt.init.nGet = some DomState.crashed ∧
    transition envCrashedVM 5 .crashed false 1 TSt.init =
      ((DomState.nostate, some TErr.invalidTarget), TSt.init) :=
  ⟨rfl, rfl⟩

/-- Claim C3: during a graceful Running-to-Shutoff transition, if any
shutdown request of the call fails with the hypervisor's operation-
invalid condition or a domain-is-not-running message (an event recorded
in the call's trace that was not there before), the call returns
success with Running as the previous state. -/
theorem graceful_opInvalid_is_success (env : Env) (fuel polls : Nat) (force : Bool)
    (s : TSt) (prev : DomState) (e : Option TErr) (s' : TSt) (ev : HCIEv)
    (hg : env.getState s.nGet = some DomState.running)
    (h : transition env (Nat.succ fuel) .shutoff force polls s = ((prev, e), s'))
    (hev : ev = HCIEv.shutdownReq ShutdownRes.errOpInvalid ∨
      ev = HCIEv.shutdownReq ShutdownRes.errNotRunning)
    (hin : ev ∈ s'.trace) (hnew : ev ∉ s.trace) :
    prev = DomState.running ∧ e = none := by
  rw [transition.eq_def] at h
  split at h
  · next hcond => exact absurd rfl hcond.2.1
  · rw [hg] at h
    simp only [] at h
    refine gracefulRounds_opInv env force polls ev hev 3 (bumpGet env s) prev e s' h hin ?_
    intro hmem
    simp [bumpGet] at hmem
    rcases hmem with hmem | hmem
    · exact hnew hmem
    · rcases hev with rfl | rfl <;> simp at hmem

theorem graceful_opInvalid_is_success_witness :
    (transition envOpInvalidRace (Nat.succ 0) .shutoff false 1 TSt.init).1.1 =
      DomState.running ∧
    (transition envOpInvalidRace (Nat.succ 0) .shutoff false 1 TSt.init).1.2 = none :=
  graceful_opInvalid_is_success envOpInvalidRace 0 1 false TSt.init _ _
    (transition envOpInvalidRace (Nat.succ 0) .shutoff false 1 TSt.init).2
    (HCIEv.shutdownReq ShutdownRes.errOpInvalid) rfl rfl (Or.inl rfl)
    (by decide) (by decide)

/-- Claim C10: `Transition` validates the requested target first: any
target outside Running, Paused, PM-Suspended, Shutoff is rejected with
an error and the NoState sentinel as previous state, before the state
query and before any hypervisor call (the instrumented state, counters
and trace included, is returned untouched). -/
theorem transition_invalid_target (env : Env) (fuel : Nat) (tgt : DomState)
    (force : Bool) (polls : Nat) (s : TSt)
    (h1 : tgt ≠ DomState.running) (h2 : tgt ≠ DomState.shutoff)
    (h3 : tgt ≠ DomState.pmsuspended) (h4 : tgt ≠ DomState.paused) :
    transition env fuel tgt force polls s = ((DomState.nostate, some TErr.invalidTarget), s) := by
  rw [transition.eq_def]
  simp [h1, h2, h3, h4]

theorem transition_invalid_target_witness :
    transition envAllOk 7 .blocked true 4 TSt.init =
      ((DomState.nostate, some TErr.invalidTarget), TSt.init) :=
  transition_invalid_target envAllOk 7 .blocked true 4 TSt.init
    (by decide) (by decide) (by decide) (by decide)

theorem goInsert_perm (less : α → α → Bool) (x : α) :
    ∀ l : List α, (goInsert less x l).Perm (x :: l)
  | [] => List.Perm.refl _
  | y :: ys => by
    rw [goInsert]
    split
    · exact List.Perm.refl _
    · exact (List.Perm.cons y (goInsert_perm less x ys)).trans (List.Perm.swap x y ys)

theorem goInsertionSort_perm_aux (less : α → α → Bool) :
    ∀ (l acc : List α),
      (List.foldl (fun acc x => goInsert less x acc) acc l).Perm (acc ++ l)
  | [], acc => by simp
  | x :: xs, acc => by
    rw [List.foldl_cons]
    refine (goInsertionSort_perm_aux less xs (goInsert less x acc)).trans ?_
    refine ((goInsert_perm less x acc).append_right xs).trans ?_
    simpa using List.perm_middle.symm

theorem goInsertionSort_perm (less : α → α → Bool) (l : List α) :
    (goInsertionSort less l).Perm l := by
  simpa [goInsertionSort] using goInsertionSort_perm_aux less l []

theorem goCondSwap_perm (less : α → α → Bool) :
    ∀ xs ys : List α,
      ((goCondSwap less xs ys).1 ++ (goCondSwap less xs ys).2).Perm (xs ++ ys)
  | [], ys => by simp [goCondSwap]
  | x :: xs, [] => by simp [goCondSwap]
  | x :: xs, y :: ys => by
    rw [goCondSwap]
    split
    · show (y :: ((goCondSwap less xs ys).1 ++ x :: (goCondSwap less xs ys).2)).Perm
        ((x :: xs) ++ (y :: ys))
      have h1 : ((goCondSwap less xs ys).1 ++ x :: (goCondSwap less xs ys).2).Perm
          (x :: ((goCondSwap less xs ys).1 ++ (goCondSwap less xs ys).2)) :=
        List.perm_middle
      refine ((List.Perm.cons y (h1.trans (List.Perm.cons x (goCondSwap_perm less xs ys)))).trans
        ?_)
      refine (List.Perm.swap x y (xs ++ ys)).trans ?_
      exact List.Perm.cons x List.perm_middle.symm
    · show (x :: ((goCondSwap less xs ys).1 ++ y :: (goCondSwap less xs ys).2)).Perm
        ((x :: xs) ++ (y :: ys))
      have h1 : ((goCondSwap less xs ys).1 ++ y :: (goCondSwap less xs ys).2).Perm
          (y :: ((goCondSwap less xs ys).1 ++ (goCondSwap less xs ys).2)) :=
        List.perm_middle
      refine ((List.Perm.cons x (h1.trans (List.Perm.cons y (goCondSwap_perm less xs ys)))).trans
        ?_)
      exact List.Perm.cons x List.perm_middle.symm

theorem goShellPass_perm (less : α → α → Bool) (l : List α) :
    (goShellPass less l).Perm l := by
  have h := goCondSwap_perm less (l.take 6) (l.drop 6)
  rw [List.take_append_drop] at h
  exact h

theorem goSortSmall_perm (less : α → α → Bool) (l : List α) :
    (goSortSmall less l).Perm l :=
  (goInsertionSort_perm less _).trans (goShellPass_perm less l)

theorem goSortSmall_mem (less : α → α → Bool) (l : List α) (x : α) :
    x ∈ goSortSmall less l ↔ x ∈ l :=
  (goSortSmall_perm less l).mem_iff

theorem goInsert_pairwise (less : α → α → Bool) (le : α → α → Prop)
    (hle : ∀ a b, less a b = true → le a b)
    (hnot : ∀ a b, less a b = false → le b a)
    (htr : ∀ a b c, le a b → le b c → le a c) (x : α) :
    ∀ l : List α, l.Pairwise le → (goInsert less x l).Pairwise le
  | [], _ => by simp [goInsert]
  | y :: ys, h => by
    rw [goInsert]
    rcases List.pairwise_cons.mp h with ⟨hy, hys⟩
    split
    · next hxy =>
      refine List.pairwise_cons.mpr ⟨?_, h⟩
      intro z hz
      rcases List.mem_cons.mp hz with rfl | hz
      · exact hle _ _ hxy
      · exact htr _ _ _ (hle _ _ hxy) (hy z hz)
    · next hxy =>
      refine List.pairwise_cons.mpr
        ⟨?_, goInsert_pairwise less le hle hnot htr x ys hys⟩
      intro z hz
      rcases List.mem_cons.mp ((goInsert_perm less x ys).mem_iff.mp hz) with rfl | hz'
      · exact hnot _ _ ((Bool.not_eq_true _).mp hxy)
      · exact hy z hz'

theorem goInsertionSort_pairwise_aux (less : α → α → Bool) (le : α → α → Prop)
    (hle : ∀ a b, less a b = true → le a b)
    (hnot : ∀ a b, less a b = false → le b a)
    (htr : ∀ a b c, le a b → le b c → le a c) :
    ∀ (l acc : List α), acc.Pairwise le →
      (List.foldl (fun acc x => goInsert less x acc) acc l).Pairwise le
  | [], _, h => h
  | x :: xs, acc, h =>
    goInsertionSort_pairwise_aux less le hle hnot htr xs _
      (goInsert_pairwise less le hle hnot htr x acc h)

theorem goSortSmall_pairwise (less : α → α → Bool) (le : α → α → Prop)
    (hle : ∀ a b, less a b = true → le a b)
    (hnot : ∀ a b, less a b = false → le b a)
    (htr : ∀ a b c, le a b → le b c → le a c) (l : List α) :
    (goSortSmall less l).Pairwise le := by
  unfold goSortSmall goInsertionSort
  exact goInsertionSort_pairwise_aux less le hle hnot htr _ [] (by simp)

theorem filterMatching_mem (pats : List (String → Bool)) (name : α → String) :
    ∀ (es : List (Option α)) (x : α),
      x ∈ (filterMatching pats name es).1 ↔
        some x ∈ es ∧ matchesAny pats (name x) = true
  | [], x => by simp [filterMatching]
  | none :: rest, x => by
    rw [filterMatching]
    simp [filterMatching_mem pats name rest x]
  | some y :: rest, x => by
    rw [filterMatching]
    split
    · next hm =>
      constructor
      · intro hx
        rcases List.mem_cons.mp hx with rfl | hx
        · exact ⟨List.mem_cons_self _ _, hm⟩
        · have := (filterMatching_mem pats name rest x).mp hx
          exact ⟨List.mem_cons_of_mem _ this.1, this.2⟩
      · rintro ⟨hmem, hmx⟩
        rcases List.mem_cons.mp hmem with heq | hmem
        · injection heq with heq
          subst heq
          exact List.mem_cons_self _ _
        · exact List.mem_cons_of_mem _ ((filterMatching_mem pats name rest x).mpr ⟨hmem, hmx⟩)
    · next hm =>
      rw [filterMatching_mem pats name rest x]
      constructor
      · rintro ⟨hmem, hmx⟩
        exact ⟨List.mem_cons_of_mem _ hmem, hmx⟩
      · rintro ⟨hmem, hmx⟩
        rcases List.mem_cons.mp hmem with heq | hmem
        · injection heq with heq
          subst heq
          exact absurd hmx hm
        · exact ⟨hmem, hmx⟩

theorem filterMatching_freed (pats : List (String → Bool)) (name : α → String) :
    ∀ es : List (Option α),
      (filterMatching pats name es).2 =
        (es.filterMap id).filter (fun x => !(matchesAny pats (name x)))
  | [] => by simp [filterMatching]
  | none :: rest => by
    rw [filterMatching]
    simpa using filterMatching_freed pats name rest
  | some y :: rest => by
    rw [filterMatching]
    split
    · next hm => simp [List.filter_cons, hm, filterMatching_freed pats name rest]
    · next hm =>
      have hm' : matchesAny pats (name y) = false := (Bool.not_eq_true _).mp hm
      simp [List.filter_cons, hm', filterMatching_freed pats name rest]

/-- Claim C7: with a non-empty compiled pattern set, an enumerated
entity whose descriptor was retrieved and parsed is in the returned
sequence iff its name matches at least one pattern, and the entities
freed during filtering are exactly the parsed non-matching ones, in
enumeration order; this holds for VM listing and snapshot listing
alike. -/
theorem listMatching_selected_iff :
    (∀ (pats : List (String → Bool)) (doms : List (Option VMD)) (out freed : List VMD),
      pats ≠ [] →
      listMatchingVMs pats doms = .ok (out, freed) →
      (∀ v : VMD, v ∈ out ↔ some v ∈ doms ∧ matchesAny pats v.name = true) ∧
      freed = (doms.filterMap id).filter (fun v => !(matchesAny pats v.name))) ∧
    (∀ (pats : List (String → Bool)) (snaps : List (Option SnapD)) (out freed : List SnapD),
      pats ≠ [] →
      listMatchingSnapshots pats snaps = .ok (out, freed) →
      (∀ sn : SnapD, sn ∈ out ↔ some sn ∈ snaps ∧ matchesAny pats sn.name = true) ∧
      freed = (snaps.filterMap id).filter (fun sn => !(matchesAny pats sn.name))) := by
  constructor
  · intro pats doms out freed hne h
    rw [listMatchingVMs, if_neg (by simpa [List.isEmpty_iff] using hne)] at h
    injection h with h
    rw [Prod.mk.injEq] at h
    obtain ⟨rfl, rfl⟩ := h
    refine ⟨fun v => ?_, filterMatching_freed pats VMD.name doms⟩
    rw [goSortSmall_mem, filterMatching_mem]
  · intro pats snaps out freed hne h
    rw [listMatchingSnapshots, if_neg (by simpa [List.isEmpty_iff] using hne)] at h
    injection h with h
    rw [Prod.mk.injEq] at h
    obtain ⟨rfl, rfl⟩ := h
    refine ⟨fun sn => ?_, filterMatching_freed pats SnapD.name snaps⟩
    rw [goSortSmall_mem, filterMatching_mem]

theorem listMatching_selected_iff_witness :
    ((⟨"alpha"⟩ : VMD) ∈ [(⟨"alpha"⟩ : VMD), ⟨"gamma"⟩] ↔
      some (⟨"alpha"⟩ : VMD) ∈ domsW ∧ matchesAny patsW "alpha" = true) ∧
    [(⟨"beta"⟩ : VMD)] =
      (domsW.filterMap id).filter (fun v => !(matchesAny patsW v.name)) := by
  have h := (listMatching_selected_iff.1 patsW domsW [⟨"alpha"⟩, ⟨"gamma"⟩] [⟨"beta"⟩]
    (by simp [patsW]) (by rfl))
  exact ⟨h.1 ⟨"alpha"⟩, h.2⟩

theorem charListLt_asymm : ∀ l1 l2 : List Char,
    charListLt l1 l2 = true → charListLt l2 l1 = false
  | l1, [], h => by cases l1 <;> simp [charListLt] at h
  | [], d :: ds, _ => rfl
  | c :: cs, d :: ds, h => by
    rw [charListLt] at h ⊢
    by_cases h1 : c.toNat < d.toNat
    · have h2 : ¬ d.toNat < c.toNat := by omega
      simp [h1, h2]
    · by_cases h2 : d.toNat < c.toNat
      · simp [h1, h2] at h
      · simp only [if_neg h1, if_neg h2] at h ⊢
        exact charListLt_asymm cs ds h

theorem charListLt_negtrans : ∀ l1 l2 l3 : List Char,
    charListLt l2 l1 = false → charListLt l3 l2 = false → charListLt l3 l1 = false
  | [], _, l3, _, _ => by cases l3 <;> rfl
  | _ :: _, [], _, h1, _ => by simp [charListLt] at h1
  | _ :: _, _ :: _, [], _, h2 => by simp [charListLt] at h2
  | c1 :: t1, c2 :: t2, c3 :: t3, h1, h2 => by
    rw [charListLt] at h1 h2 ⊢
    by_cases hc21 : c2.toNat < c1.toNat
    · simp [hc21] at h1
    · by_cases hc32 : c3.toNat < c2.toNat
      · simp [hc32] at h2
      · have hc31 : ¬ c3.toNat < c1.toNat := by omega
        rw [if_neg hc31]
        by_cases hc13 : c1.toNat < c3.toNat
        · rw [if_pos hc13]
        · rw [if_neg hc13]
          have hc12 : ¬ c1.toNat < c2.toNat := by omega
          have hc23 : ¬ c2.toNat < c3.toNat := by omega
          rw [if_neg hc12] at h1
          rw [if_neg hc23] at h2
          simp only [if_neg hc21] at h1
          simp only [if_neg hc32] at h2
          exact charListLt_negtrans t1 t2 t3 h1 h2

theorem goStrLt_asymm (a b : String) (h : goStrLt a b = true) : goStrLt b a = false :=
  charListLt_asymm a.data b.data h

theorem goStrLt_negtrans (a b c : String) (h1 : goStrLt b a = false)
    (h2 : goStrLt c b = false) : goStrLt c a = false :=
  charListLt_negtrans a.data b.data c.data h1 h2

/-- Claim C8 (amended): the matching primitives return deterministically
ordered results: VMs in ascending lexical name order and snapshots in
ascending creation-time order (no later element compares strictly below an
earlier one under the comparator the source supplies to the sorter); but the sort is not stable —
snapshots with equal creation time are not guaranteed to keep their
enumeration order (Go's `sort.Sort` is unstable). -/
theorem listMatching_sorted :
    (∀ (pats : List (String → Bool)) (doms : List (Option VMD)) (out freed : List VMD),
      listMatchingVMs pats doms = .ok (out, freed) →
      out.Pairwise (fun a b : VMD => vmLess b a = false)) ∧
    (∀ (pats : List (String → Bool)) (snaps : List (Option SnapD)) (out freed : List SnapD),
      listMatchingSnapshots pats snaps = .ok (out, freed) →
      out.Pairwise (fun a b : SnapD => snapLess b a = false)) := by
  constructor
  · intro pats doms out freed h
    rw [listMatchingVMs] at h
    split at h
    · exact absurd h (by simp)
    · injection h with h
      rw [Prod.mk.injEq] at h
      obtain ⟨rfl, -⟩ := h
      refine goSortSmall_pairwise vmLess _ ?_ ?_ ?_ _
      · intro a b hab
        exact goStrLt_asymm _ _ hab
      · intro a b hab
        exact hab
      · intro a b c h1 h2
        exact goStrLt_negtrans _ _ _ h1 h2
  · intro pats snaps out freed h
    rw [listMatchingSnapshots] at h
    split at h
    · exact absurd h (by simp)
    · injection h with h
      rw [Prod.mk.injEq] at h
      obtain ⟨rfl, -⟩ := h
      refine goSortSmall_pairwise snapLess _ ?_ ?_ ?_ _
      · intro a b hab
        exact goStrLt_asymm _ _ hab
      · intro a b hab
        exact hab
      · intro a b c h1 h2
        exact goStrLt_negtrans _ _ _ h1 h2

theorem listMatching_sorted_witness :
    List.Pairwise (fun a b : VMD => vmLess b a = false)
      [(⟨"aa"⟩ : VMD), ⟨"bb"⟩, ⟨"cc"⟩] ∧
    List.Pairwise (fun a b : SnapD => snapLess b a = false)
      [(⟨"y", "10"⟩ : SnapD), ⟨"x", "30"⟩] :=
  ⟨listMatching_sorted.1 [fun _ => true] vmsW [⟨"aa"⟩, ⟨"bb"⟩, ⟨"cc"⟩] [] (by rfl),
   listMatching_sorted.2 [fun _ => true] snapsSortW [⟨"y", "10"⟩, ⟨"x", "30"⟩] [] (by rfl)⟩

/-- Claim C8, counterexample to the stability part: snapshots "a" and
"d" have equal creation time "5" and "a" is enumerated before "d", yet
the returned sequence puts "d" before "a" (the gap-6 shell pass of Go
1.12 `sort.Sort` leapfrogs "a" over "d"); the sort is not stable. -/
theorem snapshot_sort_unstable_cex :
    listMatchingSnapshots [fun _ => true] stabilitySnaps =
      .ok ([⟨"g", "0"⟩, ⟨"b", "1"⟩, ⟨"c", "1"⟩, ⟨"e", "1"⟩, ⟨"f", "1"⟩,
        ⟨"d", "5"⟩, ⟨"a", "5"⟩], []) ∧
    (⟨"a", "5"⟩ : SnapD).creationTime = (⟨"d", "5"⟩ : SnapD).creationTime ∧
    List.indexOf (some (⟨"a", "5"⟩ : SnapD)) stabilitySnaps <
      List.indexOf (some (⟨"d", "5"⟩ : SnapD)) stabilitySnaps :=
  ⟨by rfl, rfl, by decide⟩

theorem cleanVMGo_all (env : CleanEnv) (ha : ∀ i, env.accepts i = true)
    (hd : ∀ i, env.delOk i = true) :
    ∀ (l : List SnapD) (i : Nat), cleanVMGo env l i = (l, false)
  | [], _ => rfl
  | sn :: rest, i => by
    rw [cleanVMGo, ha i, hd i]
    simp [cleanVMGo_all env ha hd rest (i + 1)]

/-- Claim C5: with every confirmation accepted and every deletion
succeeding, the per-VM clean step deletes exactly the oldest
`len - keep` snapshots of the oldest-first list (Nat subtraction is
`max (0, len - keep)`), reports no failure, and deletes nothing when
`keep` is at least the number of snapshots. -/
theorem clean_deletes_oldest (env : CleanEnv) (snaps : List SnapD) (keep : Nat)
    (ha : ∀ i, env.accepts i = true) (hd : ∀ i, env.delOk i = true) :
    cleanVM env snaps keep = (snaps.take (snaps.length - keep), false) ∧
    (cleanVM env snaps keep).1.length = snaps.length - keep ∧
    (snaps.length ≤ keep → (cleanVM env snaps keep).1 = []) := by
  have hmain : cleanVM env snaps keep = (snaps.take (snaps.length - keep), false) := by
    rw [cleanVM]
    split
    · next hle =>
      have : snaps.length - keep = 0 := Nat.sub_eq_zero_of_le hle
      simp [this]
    · exact cleanVMGo_all env ha hd _ 0
  refine ⟨hmain, ?_, ?_⟩
  · rw [hmain]
    simp [Nat.sub_le snaps.length keep]
  · intro hle
    rw [hmain]
    simp [Nat.sub_eq_zero_of_le hle]

theorem clean_deletes_oldest_witness :
    cleanVM cleanEnvYes snapsTen 2 = ([⟨"w", "10"⟩, ⟨"x", "20"⟩], false) ∧
    (cleanVM cleanEnvYes snapsTen 2).1.length = snapsTen.length - 2 ∧
    (snapsTen.length ≤ 2 → (cleanVM cleanEnvYes snapsTen 2).1 = []) :=
  clean_deletes_oldest cleanEnvYes snapsTen 2 (fun _ => rfl) (fun _ => rfl)

theorem cleanVMGo_fail (env : CleanEnv) (ha : ∀ i, env.accepts i = true) :
    ∀ (l : List SnapD) (i j : Nat), (∀ k, k < j → env.delOk (i + k) = true) →
      env.delOk (i + j) = false → j < l.length →
      cleanVMGo env l i = (l.take j, true)
  | [], _, j, _, _, hlen => absurd hlen (by simp)
  | sn :: rest, i, 0, _, hfail, _ => by
    rw [cleanVMGo, ha i]
    rw [Nat.add_zero] at hfail
    rw [hfail]
    simp
  | sn :: rest, i, j + 1, hok, hfail, hlen => by
    rw [cleanVMGo, ha i]
    have h0 : env.delOk i = true := by
      have := hok 0 (Nat.succ_pos j)
      simp at this
      exact this
    rw [h0]
    have hrec := cleanVMGo_fail env ha rest (i + 1) j
      (fun k hk => by
        have := hok (k + 1) (Nat.succ_lt_succ hk)
        rwa [show i + (k + 1) = i + 1 + k by omega] at this)
      (by rwa [show i + 1 + j = i + (j + 1) by omega])
      (by simpa using Nat.lt_of_succ_lt_succ hlen)
    simp [hrec]

/-- Claim C6 (amended): a failed deletion marks the clean operation
failed and abandons the remaining scheduled deletions of that same VM
(the per-VM closure returns), while every other VM is still processed:
the loop over VMs computes each VM's step independently and aggregates
the failure flags. -/
theorem clean_failure_scope :
    (∀ (env : CleanEnv) (snaps : List SnapD) (keep j : Nat),
      (∀ i, env.accepts i = true) → (∀ i, i < j → env.delOk i = true) →
      env.delOk j = false → j < snaps.length - keep →
      cleanVM env snaps keep = (snaps.take j, true)) ∧
    (∀ (keep : Nat) (vms : List VMCleanItem),
      cleanAll keep vms = (vms.map (fun v => (cleanStep keep v).1),
        vms.any (fun v => (cleanStep keep v).2))) := by
  constructor
  · intro env snaps keep j ha hok hfail hj
    rw [cleanVM]
    split
    · next hle =>
      exact absurd hj (by omega)
    · have hgo := cleanVMGo_fail env ha (snaps.take (snaps.length - keep)) 0 j
        (fun k hk => by simpa using hok k hk) (by simpa using hfail)
        (by simpa using hj)
      rw [hgo, List.take_take, Nat.min_eq_left (Nat.le_of_lt hj)]
  · intro keep vms
    induction vms with
    | nil => rfl
    | cons v rest ih => simp [cleanAll, ih, List.any_cons]

/-- Claim C6, counterexample to the claim as stated: with three
snapshots scheduled for deletion (keep 0), every confirmation accepted,
and only the first deletion failing, the clean step deletes nothing and
abandons the remaining two scheduled deletions of that VM (which would
have succeeded), while a second VM is still processed — the code
returns out of the per-VM closure on a failed deletion instead of
continuing with that VM's remaining deletions. -/
theorem clean_deletion_failure_aborts_vm_cex :
    cleanVM cleanEnvFailFirst snapsFail 0 = ([], true) ∧
    cleanEnvFailFirst.accepts 1 = true ∧ cleanEnvFailFirst.delOk 1 = true ∧
    cleanEnvFailFirst.delOk 2 = true ∧
    (⟨"s2", "2"⟩ : SnapD) ∉ (cleanVM cleanEnvFailFirst snapsFail 0).1 ∧
    cleanAll 0 [⟨some snapsFail, cleanEnvFailFirst⟩, ⟨some snapsOther, cleanEnvYesB⟩] =
      ([[], [⟨"t1", "7"⟩]], true) :=
  ⟨rfl, rfl, rfl, rfl, by decide, rfl⟩

theorem clean_failure_scope_witness :
    cleanVM cleanEnvFailSecond snapsScope 0 = (snapsScope.take 1, true) ∧
    cleanAll 0 vmItemsW = (vmItemsW.map (fun v => (cleanStep 0 v).1),
      vmItemsW.any (fun v => (cleanStep 0 v).2)) :=
  ⟨clean_failure_scope.1 cleanEnvFailSecond snapsScope 0 1 (fun _ => rfl)
      (fun i hi => by interval_cases i; rfl) rfl (by decide),
   clean_failure_scope.2 0 vmItemsW⟩

theorem createSnapshotLoop_ok (env : CreateEnv) (pre : String) :
    ∀ (fuel i : Nat) (nm : String), createSnapshotLoop env pre fuel i = .ok nm →
      ∃ k, nm = pre ++ env.slug (i + k) ∧
        (∃ fr, listMatchingSnapshots [exactMatch nm] env.snaps = .ok ([], fr)) ∧
        (∀ m, m < k → ∀ fr,
          listMatchingSnapshots [exactMatch (pre ++ env.slug (i + m))] env.snaps ≠
            .ok ([], fr))
  | 0, i, nm, h => by simp [createSnapshotLoop] at h
  | fuel + 1, i, nm, h => by
    rw [createSnapshotLoop] at h
    split at h
    · split at h
      · next heq => simp at h
      · next r heq =>
        split at h
        · next hemp =>
          injection h with h
          subst h
          refine ⟨0, by simp, ⟨r.2, ?_⟩, by omega⟩
          rw [heq]
          have : r.1 = [] := List.isEmpty_iff.mp hemp
          rw [← this]
        · next hemp =>
          obtain ⟨k, hnm, hfresh, hcoll⟩ :=
            createSnapshotLoop_ok env pre fuel (i + 1) nm h
          refine ⟨k + 1, by rwa [show i + (k + 1) = i + 1 + k by omega], hfresh, ?_⟩
          intro m hm fr hbad
          cases m with
          | zero =>
            rw [Nat.add_zero] at hbad
            rw [heq] at hbad
            injection hbad with hbad
            rw [Prod.mk.injEq] at hbad
            exact hemp (by simp [hbad.1])
          | succ m' =>
            refine hcoll m' (by omega) fr ?_
            rwa [show i + 1 + m' = i + (m' + 1) by omega]
    · simp at h

/-- Claim C9: `CreateSnapshot` retries generating `prefix + slug` names
until the exact-match query over the VM's existing snapshots comes back
empty: a successful call returns a snapshot whose name is the prefix
followed by a generated slug, which matched zero existing snapshots at
the final uniqueness check while every earlier candidate matched at
least one; and when the hypervisor rejects the creation the call
returns an error instead. -/
theorem createSnapshot_spec (env : CreateEnv) (pre desc : String) (fuel : Nat) :
    (∀ snap : NewSnap, createSnapshot env pre desc fuel = .ok snap →
      snap.description = desc ∧
      ∃ k, snap.name = pre ++ env.slug k ∧
        (∃ fr, listMatchingSnapshots [exactMatch snap.name] env.snaps = .ok ([], fr)) ∧
        (∀ m, m < k → ∀ fr,
          listMatchingSnapshots [exactMatch (pre ++ env.slug m)] env.snaps ≠
            .ok ([], fr))) ∧
    (env.createOk = false → ∀ snap : NewSnap,
      createSnapshot env pre desc fuel ≠ .ok snap) := by
  constructor
  · intro snap h
    rw [createSnapshot] at h
    split at h
    · simp at h
    · next nm hloop =>
      split at h
      · split at h
        · injection h with h
          subst h
          obtain ⟨k, hnm, hfresh, hcoll⟩ := createSnapshotLoop_ok env pre fuel 0 nm hloop
          simp only [Nat.zero_add] at hnm hcoll
          exact ⟨rfl, k, hnm, hnm ▸ hfresh, hcoll⟩
        · simp at h
      · simp at h
  · intro hrej snap h
    rw [createSnapshot] at h
    split at h
    · simp at h
    · split at h
      · rw [hrej] at h
        simp at h
      · simp at h

theorem createSnapshot_spec_witness :
    (⟨"virsnap_x1", "d"⟩ : NewSnap).description = "d" ∧
    ∃ k, (⟨"virsnap_x1", "d"⟩ : NewSnap).name = "virsnap_" ++ createEnvW.slug k ∧
      (∃ fr, listMatchingSnapshots [exactMatch (⟨"virsnap_x1", "d"⟩ : NewSnap).name]
        createEnvW.snaps = .ok ([], fr)) ∧
      (∀ m, m < k → ∀ fr,
        listMatchingSnapshots [exactMatch ("virsnap_" ++ createEnvW.slug m)]
          createEnvW.snaps ≠ .ok ([], fr)) :=
  (createSnapshot_spec createEnvW "virsnap_" "d" 2).1 ⟨"virsnap_x1", "d"⟩ (by rfl)

/-- Claim C4: in the per-VM step of both the create and the export
orchestration, once the pre-state capture (the initial transition to
Shutoff) has succeeded, the restoring transition back to the captured
state is attempted on every exit path, including the paths where
snapshot creation or the export copy fails (the outcome oracles are
universally quantified, so the failing combinations are covered). -/
theorem orchestration_restore_always (env : OrchEnv) (former : DomState)
    (hc : env.capture = some former) (snapFlag : Bool) :
    OrchEv.restoreTried former env.restoreOk ∈ (createStep env true).2 ∧
    OrchEv.restoreTried former env.restoreOk ∈ (exportStep env snapFlag).2 := by
  constructor
  · simp [createStep, hc]
  · cases snapFlag <;> simp [exportStep, hc]

theorem orchestration_restore_always_witness :
    OrchEv.restoreTried DomState.running orchEnvW.restoreOk ∈ (createStep orchEnvW true).2 ∧
    OrchEv.restoreTried DomState.running orchEnvW.restoreOk ∈ (exportStep orchEnvW true).2 :=
  orchestration_restore_always orchEnvW DomState.running rfl true

end Virsnap
